import Mathlib

/-!
Verification of the orchestration layer in `pipe_util.c` (pipe utility
extensions: stage connector, fan-out/fan-in builder, linear pipeline builder,
thread-handle registry) against its specification.

The C code is shallowly embedded as pure Lean functions.  Construction-time
side effects (queue creation, endpoint creation/release, thread spawn/join,
array release) are recorded as an explicit, ordered event trace inside a
`BuildState`; the external queue primitive and thread shim are modelled by
their interface (fresh identifiers drawn from counters).  The worker thread
body `process_pipe` is modelled as a function from the element stream its
consumer endpoint will deliver (before permanent end-of-stream) to the
ordered list of observable actions it performs.
-/

set_option maxHeartbeats 1600000

namespace PipeUtil

/-- Capacity, in elements, of a worker's scratch batch buffer
(`DEFAULT_BUFFER_SIZE` in pipe_util.c). -/
def DEFAULT_BUFFER_SIZE : Nat := 128

/-- Observable actions of one stage worker thread (`process_pipe`), in program
order.  `callBatch b` is an invocation `p.proc(buf, elems_read, p.out, p.aux)`
carrying the non-empty batch `b` (non-null buffer, `elems_read = b.length`,
the worker's real producer endpoint, the auxiliary context); `callEOS` is the
final invocation `p.proc(NULL, 0, NULL, p.aux)`; the last three record
`free(buf)`, `pipe_consumer_free(p.in)` and `pipe_producer_free(p.out)`. -/
inductive WorkerEvent (α : Type) where
  | callBatch (batch : List α)
  | callEOS
  | freeBuf
  | freeConsumer
  | freeProducer
deriving DecidableEq, Repr

/-- The pop/process loop of `process_pipe`:
`while((elems_read = pipe_pop(p.in, buf, DEFAULT_BUFFER_SIZE))) p.proc(buf, elems_read, p.out, p.aux);`.
The consumer endpoint is modelled by the list of elements it delivers before
reporting permanent end-of-stream; a blocking `pipe_pop` with room for 128
elements returns the next `min 128 remaining` of them, and returns 0 exactly
when the stream is exhausted. -/
def process_pipe_loop {α : Type} : List α → List (WorkerEvent α)
  | [] => []
  | x :: xs =>
    .callBatch ((x :: xs).take DEFAULT_BUFFER_SIZE) ::
      process_pipe_loop ((x :: xs).drop DEFAULT_BUFFER_SIZE)
termination_by input => input.length
decreasing_by
  simp only [List.length_drop, List.length_cons, DEFAULT_BUFFER_SIZE]
  omega

/-- Body of the worker thread spawned by `pipe_connect` (`process_pipe` in
pipe_util.c): the pop/process loop, then the end-of-stream call
`p.proc(NULL, 0, NULL, p.aux)`, then `free(buf)`, `pipe_consumer_free(p.in)`,
`pipe_producer_free(p.out)`. -/
def process_pipe {α : Type} (input : List α) : List (WorkerEvent α) :=
  process_pipe_loop input ++
    [WorkerEvent.callEOS, WorkerEvent.freeBuf,
     WorkerEvent.freeConsumer, WorkerEvent.freeProducer]

/-- The successive batches the worker's `pipe_pop` calls deliver: chunks of at
most `DEFAULT_BUFFER_SIZE` elements, in stream order. -/
def chunks {α : Type} : List α → List (List α)
  | [] => []
  | x :: xs =>
    (x :: xs).take DEFAULT_BUFFER_SIZE :: chunks ((x :: xs).drop DEFAULT_BUFFER_SIZE)
termination_by input => input.length
decreasing_by
  simp only [List.length_drop, List.length_cons, DEFAULT_BUFFER_SIZE]
  omega

theorem process_pipe_loop_eq_chunks {α : Type} (input : List α) :
    process_pipe_loop input = (chunks input).map WorkerEvent.callBatch := by
  match input with
  | [] => rw [process_pipe_loop, chunks]; rfl
  | x :: xs =>
    rw [process_pipe_loop, chunks]
    simp only [List.map_cons, List.cons.injEq]
    exact ⟨trivial, process_pipe_loop_eq_chunks _⟩
termination_by input.length
decreasing_by
  simp only [List.length_drop, List.length_cons, DEFAULT_BUFFER_SIZE]
  omega

theorem chunks_flatten {α : Type} (input : List α) : (chunks input).flatten = input := by
  match input with
  | [] => rw [chunks]; rfl
  | x :: xs =>
    rw [chunks]
    simp only [List.flatten_cons]
    rw [chunks_flatten]
    exact List.take_append_drop _ _
termination_by input.length
decreasing_by
  simp only [List.length_drop, List.length_cons, DEFAULT_BUFFER_SIZE]
  omega

theorem chunks_mem {α : Type} (input : List α) (b : List α) (hb : b ∈ chunks input) :
    b ≠ [] ∧ b.length ≤ DEFAULT_BUFFER_SIZE := by
  match input with
  | [] => rw [chunks] at hb; simp at hb
  | x :: xs =>
    rw [chunks] at hb
    simp only [List.mem_cons] at hb
    rcases hb with rfl | hb
    · refine ⟨?_, List.length_take_le _ _⟩
      simp [List.take_eq_nil_iff, DEFAULT_BUFFER_SIZE]
    · exact chunks_mem _ _ hb
termination_by input.length
decreasing_by
  simp only [List.length_drop, List.length_cons, DEFAULT_BUFFER_SIZE]
  omega

/-- C1: every stage worker spawned by the stage connector repeatedly pops up
to 128 elements from its consumer endpoint and, for each non-empty batch,
invokes the processing function with (batch pointer, elements read, producer
endpoint, auxiliary context); when a pop yields zero elements it exits the
loop, invokes the processing function exactly once more with
(null pointer, 0, null producer endpoint, auxiliary context), and then
releases the scratch buffer, the consumer endpoint, and the producer
endpoint, in that order.  The batches partition the input stream in order. -/
theorem process_pipe_spec {α : Type} (input : List α) :
    ∃ batches : List (List α),
      process_pipe input = batches.map WorkerEvent.callBatch ++
        [WorkerEvent.callEOS, WorkerEvent.freeBuf,
         WorkerEvent.freeConsumer, WorkerEvent.freeProducer] ∧
      batches.flatten = input ∧
      ∀ b ∈ batches, b ≠ [] ∧ b.length ≤ DEFAULT_BUFFER_SIZE :=
  ⟨chunks input, by rw [process_pipe, process_pipe_loop_eq_chunks],
    chunks_flatten input, fun b hb => chunks_mem input b hb⟩

/-- The sequence of elements a per-batch processing behaviour `procPush`
pushes to the worker's output endpoint over a list of worker events: each
`callBatch b` contributes `procPush b`, every other event (in particular the
end-of-stream call, which must not push) contributes nothing. -/
def pushesOf {α β : Type} (procPush : List α → List β)
    (evs : List (WorkerEvent α)) : List β :=
  (evs.map fun e => match e with
    | .callBatch b => procPush b
    | _ => []).flatten

/-- Everything one stage worker pushes downstream, given the element stream
its consumer endpoint delivers and the per-batch behaviour of its processing
function. -/
def worker_output {α β : Type} (procPush : List α → List β)
    (input : List α) : List β :=
  pushesOf procPush (process_pipe input)

theorem pushesOf_append {α β : Type} (procPush : List α → List β)
    (l₁ l₂ : List (WorkerEvent α)) :
    pushesOf procPush (l₁ ++ l₂) = pushesOf procPush l₁ ++ pushesOf procPush l₂ := by
  simp [pushesOf]

/-- C5: a single stage connector running the identity processing function
(pushing every input batch verbatim) reproduces the fed sequence exactly, in
content and order; after the batch calls the worker performs the
end-of-stream call and releases its endpoints (which is what downstream
readers observe as end-of-stream).  In particular feeding 1..1000 yields
exactly 1..1000. -/
theorem identity_stage_spec :
    (∀ (α : Type) (input : List α), worker_output (fun b => b) input = input) ∧
    worker_output (fun b => b) (List.range' 1 1000) = List.range' 1 1000 ∧
    (∀ (α : Type) (input : List α), ∃ evs : List (WorkerEvent α),
      process_pipe input = evs ++
        [WorkerEvent.callEOS, WorkerEvent.freeBuf,
         WorkerEvent.freeConsumer, WorkerEvent.freeProducer] ∧
      ∀ e ∈ evs, ∃ b, e = WorkerEvent.callBatch b) := by
  have hmain : ∀ (α : Type) (input : List α),
      worker_output (fun b => b) input = input := by
    intro α input
    rw [worker_output, process_pipe, pushesOf_append, process_pipe_loop_eq_chunks]
    have h₂ : pushesOf (fun b => b)
        [WorkerEvent.callEOS, WorkerEvent.freeBuf,
         WorkerEvent.freeConsumer, WorkerEvent.freeProducer] = ([] : List α) := by
      simp [pushesOf]
    rw [h₂, List.append_nil]
    have h₁ : pushesOf (fun b => b) ((chunks input).map WorkerEvent.callBatch)
        = (chunks input).flatten := by
      rw [pushesOf, List.map_map]
      have hcomp : ((fun e => match e with
          | WorkerEvent.callBatch b => b
          | _ => ([] : List α)) ∘ WorkerEvent.callBatch) = fun b => b := rfl
      rw [hcomp, List.map_id']
    rw [h₁, chunks_flatten]
  refine ⟨hmain, hmain _ _, ?_⟩
  intro α input
  refine ⟨(chunks input).map WorkerEvent.callBatch, ?_, ?_⟩
  · rw [process_pipe, process_pipe_loop_eq_chunks]
  · intro e he
    rcases List.mem_map.mp he with ⟨b, _, rfl⟩
    exact ⟨b, rfl⟩

/-- A reference-counted handle to one side of a queue (`pipe_producer_t*` /
`pipe_consumer_t*`).  `q` is the queue it belongs to, `id` is a globally
fresh identifier (each `pipe_producer_new` / `pipe_consumer_new` call yields
a distinct one), `producer` tells which side it is. -/
structure Endpoint where
  q : Nat
  id : Nat
  producer : Bool
deriving DecidableEq, Repr

/-- The `pipeline_t` pair of pipe_util.h: the two open ends of a constructed
network.  The C fields are `.in` and `.out`; `in` is a Lean keyword, so the
producer end is called `inp` here.  Each end is a nullable endpoint pointer. -/
structure pipeline_t where
  inp : Option Endpoint
  out : Option Endpoint
deriving DecidableEq, Repr

/-- One observable construction-time effect, recorded in program order:
queue creation/destruction (`pipe_new` / `pipe_free`), endpoint
creation/release, worker-thread spawn (`thread_create` inside
`pipe_connect`, carrying the consumer endpoint id, the processing function,
the auxiliary context and the producer endpoint id it was given),
thread join (`thread_destroy`), and the `free(*handles)` of
`pipe_handles_free` (`arrayFree`). -/
inductive Event where
  | queueNew (q elemSize : Nat)
  | queueFree (q : Nat)
  | producerNew (ep q : Nat)
  | consumerNew (ep q : Nat)
  | producerFree (ep : Nat)
  | consumerFree (ep : Nat)
  | spawn (t inEp proc aux outEp : Nat)
  | join (t : Nat)
  | arrayFree
deriving DecidableEq, Repr

/-- Construction-time state: fresh-identifier counters for queues, endpoints
and threads, a counter numbering the `realloc` calls of `va_pipe_pipeline`
(so an oracle can decide which of them succeed), and the ordered event
trace. -/
structure BuildState where
  nextQ : Nat
  nextEp : Nat
  nextT : Nat
  nextAlloc : Nat
  events : List Event
deriving DecidableEq, Repr

/-- External queue primitive `pipe_new(elem_size, 0)`: returns a fresh queue.
The capacity argument is always 0 (unbounded) in pipe_util.c. -/
def pipe_new (elemSize : Nat) (s : BuildState) : Nat × BuildState :=
  (s.nextQ, { s with nextQ := s.nextQ + 1,
                     events := s.events ++ [.queueNew s.nextQ elemSize] })

/-- External `pipe_producer_new(q)`: a fresh producer endpoint on `q`. -/
def pipe_producer_new (q : Nat) (s : BuildState) : Endpoint × BuildState :=
  (⟨q, s.nextEp, true⟩,
   { s with nextEp := s.nextEp + 1,
            events := s.events ++ [.producerNew s.nextEp q] })

/-- External `pipe_consumer_new(q)`: a fresh consumer endpoint on `q`. -/
def pipe_consumer_new (q : Nat) (s : BuildState) : Endpoint × BuildState :=
  (⟨q, s.nextEp, false⟩,
   { s with nextEp := s.nextEp + 1,
            events := s.events ++ [.consumerNew s.nextEp q] })

/-- External `pipe_free(q)`: releases the constructor's reference on `q`. -/
def pipe_free (q : Nat) (s : BuildState) : BuildState :=
  { s with events := s.events ++ [.queueFree q] }

/-- External `pipe_consumer_free(c)`. -/
def pipe_consumer_free (c : Endpoint) (s : BuildState) : BuildState :=
  { s with events := s.events ++ [.consumerFree c.id] }

/-- External `pipe_producer_free(p)`. -/
def pipe_producer_free (p : Endpoint) (s : BuildState) : BuildState :=
  { s with events := s.events ++ [.producerFree p.id] }

/-- The `pipe_trivial_pipeline` wrap: a producer and a consumer endpoint on
one queue. -/
def pipe_trivial_pipeline (p : Nat) (s : BuildState) : pipeline_t × BuildState :=
  let r₁ := pipe_producer_new p s
  let r₂ := pipe_consumer_new p r₁.2
  (⟨some r₁.1, some r₂.1⟩, r₂.2)

/-- Body of `pipe_connect` after its asserts have passed: allocate and fill
the `connect_data_t`, `thread_create(&process_pipe, d)`, and store the new
thread handle through `handle` when that pointer is non-null.  `handlePtr`
models the `THREAD_HANDLE* handle` argument (`none` = null pointer,
`some old` = pointer to current value `old`); the returned value is the
pointee after the call.  Thread handles are modelled as `Option Nat`
(`none` = the null `THREAD_HANDLE`). -/
def pipe_connect_core (i : Endpoint) (proc aux : Nat) (o : Endpoint)
    (handlePtr : Option (Option Nat)) (s : BuildState) :
    Option (Option Nat) × BuildState :=
  (handlePtr.map fun _ => some s.nextT,
   { s with nextT := s.nextT + 1,
            events := s.events ++ [.spawn s.nextT i.id proc aux o.id] })

/-- The stage connector `pipe_connect(in, proc, aux, out, handle)`.  Its first
three effects are `assert(in); assert(out); assert(proc);`: a null consumer
endpoint, null producer endpoint or null processing function aborts the
process, modelled as `Except.error ()`.  Otherwise the connector cannot fail
and spawns exactly one worker thread. -/
def pipe_connect (oin : Option Endpoint) (oproc : Option Nat) (aux : Nat)
    (oout : Option Endpoint) (handlePtr : Option (Option Nat)) (s : BuildState) :
    Except Unit (Option (Option Nat) × BuildState) :=
  match oin, oout, oproc with
  | some i, some o, some p => .ok (pipe_connect_core i p aux o handlePtr s)
  | _, _, _ => .error ()

/-- The stage-connector cleanup `pipe_connect_free(handle)`: join the worker
(`thread_destroy`), a null handle being a no-op. -/
def pipe_connect_free (handle : Option Nat) (s : BuildState) : BuildState :=
  match handle with
  | some t => { s with events := s.events ++ [.join t] }
  | none => s

/-- The `for(i = 0; i < count; i++) { memcpy(&handle, ...); pipe_connect_free(handle); }`
loop of `pipe_handles_free`, over the handles it reads. -/
def joinLoop (hs : List (Option Nat)) (s : BuildState) : BuildState :=
  match hs with
  | [] => s
  | h :: t => joinLoop t (pipe_connect_free h s)

/-- The registry cleanup `pipe_handles_free(count, handles)`.  `handles`
models the `THREAD_HANDLE**` argument: the outer `Option` is the pointer
itself (`none` = null), the inner `Option` is the pointee `*handles`
(`none` = null array pointer, `some arr` = an array holding `arr`).  The
returned first component is the caller-visible pointer state after the
call. -/
def pipe_handles_free (count : Nat)
    (handles : Option (Option (List (Option Nat)))) (s : BuildState) :
    Option (Option (List (Option Nat))) × BuildState :=
  if count = 0 ∨ handles = none then (handles, s)
  else
    let t := (handles.getD none).getD []
    let s := joinLoop (t.take count) s
    (some none, { s with events := s.events ++ [.arrayFree] })

theorem joinLoop_spec (hs : List (Option Nat)) (s : BuildState) :
    joinLoop hs s =
      { s with events := s.events ++ (hs.filterMap id).map Event.join } := by
  induction hs generalizing s with
  | nil => simp [joinLoop]
  | cons h t ih =>
    match h with
    | none => simp [joinLoop, pipe_connect_free, ih]
    | some x => simp [joinLoop, pipe_connect_free, ih]

/-- C8: calling the stage connector with a null input consumer endpoint, a
null output producer endpoint, or a null processing function fails fast via
assertion (modelled as `Except.error`); with all three non-null no error path
exists: the call returns normally, spawns exactly one worker thread (one new
`spawn` event, one new thread id), and stores the handle through the caller's
handle pointer exactly when that pointer is non-null. -/
theorem pipe_connect_spec (oin oout : Option Endpoint) (oproc : Option Nat)
    (aux : Nat) (handlePtr : Option (Option Nat)) (s : BuildState) :
    ((oin = none ∨ oout = none ∨ oproc = none) →
      pipe_connect oin oproc aux oout handlePtr s = .error ()) ∧
    (∀ i o p, oin = some i → oout = some o → oproc = some p →
      pipe_connect oin oproc aux oout handlePtr s =
        .ok (handlePtr.map fun _ => some s.nextT,
             { s with nextT := s.nextT + 1,
                      events := s.events ++ [.spawn s.nextT i.id p aux o.id] })) := by
  constructor
  · intro h
    rcases h with rfl | rfl | rfl
    · rfl
    · cases oin <;> rfl
    · cases oin <;> cases oout <;> rfl
  · rintro i o p rfl rfl rfl
    rfl

/-- C8 witness: a concrete null-argument call is rejected and a concrete
fully-supplied call spawns one worker and stores its handle. -/
theorem pipe_connect_spec_witness :
    pipe_connect none (some 7) 3 (some ⟨0, 1, true⟩) (some none) ⟨0, 2, 0, 0, []⟩
        = .error () ∧
    pipe_connect (some ⟨0, 0, false⟩) (some 7) 3 (some ⟨0, 1, true⟩) (some none)
        ⟨1, 2, 5, 0, []⟩ =
      .ok (some (some 5),
           { nextQ := 1, nextEp := 2, nextT := 6, nextAlloc := 0,
             events := [.spawn 5 0 7 3 1] }) :=
  ⟨(pipe_connect_spec none (some ⟨0, 1, true⟩) (some 7) 3 (some none)
      ⟨0, 2, 0, 0, []⟩).1 (Or.inl rfl),
   (pipe_connect_spec (some ⟨0, 0, false⟩) (some ⟨0, 1, true⟩) (some 7) 3
      (some none) ⟨1, 2, 5, 0, []⟩).2 ⟨0, 0, false⟩ ⟨0, 1, true⟩ 7 rfl rfl rfl⟩

/-- C7: with a non-zero count and a non-null registry, `pipe_handles_free`
joins every recorded handle in order (through `pipe_connect_free`, which
skips null handles), then frees the backing array and resets the caller's
array pointer to null; with count 0 or a null registry pointer it performs no
join at all (it returns with the state untouched). -/
theorem pipe_handles_free_spec (count : Nat) (arr : List (Option Nat))
    (s : BuildState) :
    (count ≠ 0 →
      pipe_handles_free count (some (some arr)) s =
        (some none,
         { s with events := s.events ++
             ((arr.take count).filterMap id).map Event.join ++ [.arrayFree] })) ∧
    (∀ handles, count = 0 ∨ handles = none →
      pipe_handles_free count handles s = (handles, s)) := by
  constructor
  · intro h
    rw [pipe_handles_free, if_neg (by simp [h])]
    simp [joinLoop_spec]
  · intro handles h
    rw [pipe_handles_free, if_pos h]

/-- C7 witness: freeing a two-handle registry joins both in order, frees the
array and nulls the pointer; a zero-count call leaves everything alone. -/
theorem pipe_handles_free_spec_witness :
    (2 ≠ 0 ∧
      pipe_handles_free 2 (some (some [some 4, some 9])) ⟨0, 0, 0, 0, []⟩ =
        (some none, ⟨0, 0, 0, 0, [.join 4, .join 9, .arrayFree]⟩)) ∧
    pipe_handles_free 0 (some (some [some 4])) ⟨0, 0, 0, 0, []⟩ =
      (some (some [some 4]), ⟨0, 0, 0, 0, []⟩) :=
  ⟨⟨by decide,
    (pipe_handles_free_spec 2 [some 4, some 9] ⟨0, 0, 0, 0, []⟩).1 (by decide)⟩,
   (pipe_handles_free_spec 0 [some 4] ⟨0, 0, 0, 0, []⟩).2 (some (some [some 4]))
     (Or.inl rfl)⟩

/-- The `while(instances--)` loop of `pipe_parallel`: each iteration creates a
fresh consumer endpoint on the shared input queue and a fresh producer
endpoint on the shared output queue, connects them through the stage
connector (the local `THREAD_HANDLE thread` starts null and `pipe_connect`
always receives its address), and appends the resulting handle to the
`threads` array (`memcpy(threads + count++, ...)`). -/
def parallel_loop (n qIn qOut proc aux : Nat) (s : BuildState) :
    List (Option Nat) × BuildState :=
  match n with
  | 0 => ([], s)
  | k + 1 =>
    let rc := pipe_consumer_new qIn s
    let rp := pipe_producer_new qOut rc.2
    let rt := pipe_connect_core rc.1 proc aux rp.1 (some none) rp.2
    let thread := rt.1.getD none
    let rest := parallel_loop k qIn qOut proc aux rt.2
    (thread :: rest.1, rest.2)

/-- The fan-out/fan-in builder `pipe_parallel(instances, handles, in_size,
proc, aux, out_size)`: one input queue, one output queue, `instances` runs of
the stage connector, a new producer/consumer pair handed back as the
pipeline descriptor, release of the two queue references, and either
`*handles = threads` (when `handles` is non-null, modelled by
`wantHandles = true`; the middle component of the result is the pointee
written) or `free(threads)`. -/
def pipe_parallel (instances : Nat) (wantHandles : Bool) (in_size proc aux out_size : Nat)
    (s : BuildState) :
    pipeline_t × Option (List (Option Nat)) × BuildState :=
  let rin := pipe_new in_size s
  let rout := pipe_new out_size rin.2
  let rloop := parallel_loop instances rin.1 rout.1 proc aux rout.2
  let rp := pipe_producer_new rin.1 rloop.2
  let rc := pipe_consumer_new rout.1 rp.2
  let ret : pipeline_t := ⟨some rp.1, some rc.1⟩
  let s₁ := pipe_free rout.1 (pipe_free rin.1 rc.2)
  (ret, if wantHandles then some rloop.1 else none, s₁)

/-- The list of thread handles `n` consecutive spawns produce, starting at
thread id `t`. -/
def threads_from (n t : Nat) : List (Option Nat) :=
  match n with
  | 0 => []
  | k + 1 => some t :: threads_from k (t + 1)

/-- The events one run of the `pipe_parallel` loop emits for `n` instances,
with endpoint ids starting at `ep` and thread ids at `t`. -/
def parallel_spawn_events (n qIn qOut proc aux ep t : Nat) : List Event :=
  match n with
  | 0 => []
  | k + 1 =>
    [.consumerNew ep qIn, .producerNew (ep + 1) qOut,
     .spawn t ep proc aux (ep + 1)] ++
      parallel_spawn_events k qIn qOut proc aux (ep + 2) (t + 1)

theorem threads_from_length (n t : Nat) : (threads_from n t).length = n := by
  induction n generalizing t with
  | zero => rfl
  | succ k ih => simp [threads_from, ih]

theorem parallel_loop_spec (n qIn qOut proc aux : Nat) (s : BuildState) :
    parallel_loop n qIn qOut proc aux s =
      (threads_from n s.nextT,
       { s with nextEp := s.nextEp + 2 * n, nextT := s.nextT + n,
                events := s.events ++
                  parallel_spawn_events n qIn qOut proc aux s.nextEp s.nextT }) := by
  induction n generalizing s with
  | zero => simp [parallel_loop, threads_from, parallel_spawn_events]
  | succ k ih =>
    simp only [parallel_loop, pipe_consumer_new, pipe_producer_new,
      pipe_connect_core, Option.getD, Option.map, threads_from,
      parallel_spawn_events]
    rw [ih]
    simp only [Prod.mk.injEq, List.cons.injEq, BuildState.mk.injEq]
    refine ⟨trivial, trivial, by omega, by omega, trivial, ?_⟩
    have h2 : s.nextEp + 1 + 1 = s.nextEp + 2 := by omega
    rw [h2]
    simp [List.append_assoc]

/-- C2: for every instance count `n`, the fan-out/fan-in builder creates
exactly one input queue (element size `in_size`) and one output queue
(element size `out_size`), runs the stage connector exactly `n` times — the
`i`-th run on a fresh consumer endpoint of the input queue and a fresh
producer endpoint of the output queue (all endpoint ids distinct by
construction, stepping through `parallel_spawn_events`) — and returns a
descriptor whose producer end is a new producer endpoint on the input queue
and whose consumer end is a new consumer endpoint on the output queue; the
array of the `n` thread handles is handed back exactly when the caller
supplied a non-null `handles` pointer. -/
theorem pipe_parallel_spec (n : Nat) (wantHandles : Bool)
    (in_size proc aux out_size : Nat) (s : BuildState) :
    pipe_parallel n wantHandles in_size proc aux out_size s =
      (⟨some ⟨s.nextQ, s.nextEp + 2 * n, true⟩,
        some ⟨s.nextQ + 1, s.nextEp + 2 * n + 1, false⟩⟩,
       (if wantHandles then some (threads_from n s.nextT) else none),
       { s with nextQ := s.nextQ + 2, nextEp := s.nextEp + 2 * n + 2,
                nextT := s.nextT + n,
                events := s.events ++
                  [.queueNew s.nextQ in_size, .queueNew (s.nextQ + 1) out_size] ++
                  parallel_spawn_events n s.nextQ (s.nextQ + 1) proc aux
                    s.nextEp s.nextT ++
                  [.producerNew (s.nextEp + 2 * n) s.nextQ,
                   .consumerNew (s.nextEp + 2 * n + 1) (s.nextQ + 1),
                   .queueFree s.nextQ, .queueFree (s.nextQ + 1)] }) ∧
    (threads_from n s.nextT).length = n := by
  refine ⟨?_, threads_from_length n s.nextT⟩
  simp only [pipe_parallel, pipe_new]
  rw [parallel_loop_spec]
  simp only [pipe_producer_new, pipe_consumer_new, pipe_free, Prod.mk.injEq,
    pipeline_t.mk.injEq, Option.some.injEq, Endpoint.mk.injEq,
    BuildState.mk.injEq]
  refine ⟨trivial, trivial, trivial, trivial, trivial, trivial, ?_⟩
  simp [List.append_assoc]

/-- C10: calling the registry cleanup with count 0 but a non-null handles
pointer holding a non-null (possibly empty) array returns immediately: the
backing array is not freed, the caller's pointer is not reset, no thread is
joined, and the whole state is left unchanged.  A zero-instance fan-out
build with a non-null handles pointer produces exactly such a registry: it
hands back a (zero-length, non-null) thread array. -/
theorem pipe_handles_free_zero_count_frame :
    (∀ (arr : List (Option Nat)) (s : BuildState),
      pipe_handles_free 0 (some (some arr)) s = (some (some arr), s)) ∧
    (∀ (in_size proc aux out_size : Nat) (s : BuildState),
      (pipe_parallel 0 true in_size proc aux out_size s).2.1 = some []) := by
  constructor
  · intro arr s
    rw [pipe_handles_free, if_pos (Or.inl rfl)]
  · intro in_size proc aux out_size s
    rfl


/-- One (processing function, auxiliary context, next element size) triple of
the variadic argument list of `pipe_pipeline`.  A null processing function
(`proc = none`) is the sentinel; its `aux` and `size` fields are never read
(the C code stops pulling `va_arg`s at the sentinel). -/
structure StageDesc where
  proc : Option Nat
  aux : Nat
  size : Nat
deriving DecidableEq, Repr

/-- A non-sentinel stage descriptor from a plain (proc, aux, size) triple. -/
def mkStage (d : Nat × Nat × Nat) : StageDesc :=
  ⟨some d.1, d.2.1, d.2.2⟩

/-- The recursive variadic worker `va_pipe_pipeline(count, handles,
result_so_far, args)`.  `allocOk` is the oracle deciding whether the `i`-th
`realloc` call of this construction succeeds (`s.nextAlloc` numbers those
calls).  `count` models the `int* count` argument (`none` = null pointer,
`some c` = pointer to value `c`), `handles` models `THREAD_HANDLE** handles`
as in `pipe_handles_free`.  Per non-sentinel descriptor with a non-zero
element size: create the stage's output queue, a fresh producer endpoint on
it, connect (assertions of `pipe_connect` included — a null accumulated
consumer end would abort), then, only when both `count` and `handles` are
non-null, try to grow the registry (on `realloc` failure nothing is
recorded and nothing is rolled back), advance the accumulated consumer end
to a fresh consumer endpoint on the new queue, release the constructor's
queue reference, and recurse.  A descriptor with element size 0 releases the
accumulated consumer end, nulls it and stops (the sink rule). -/
def va_pipe_pipeline (allocOk : Nat → Bool) (count : Option Nat)
    (handles : Option (Option (List (Option Nat))))
    (result_so_far : pipeline_t) (args : List StageDesc) (s : BuildState) :
    Except Unit (pipeline_t × Option Nat ×
      Option (Option (List (Option Nat))) × BuildState) :=
  match args with
  | [] => .ok (result_so_far, count, handles, s)
  | d :: rest =>
    match d.proc with
    | none => .ok (result_so_far, count, handles, s)
    | some proc =>
      if d.size = 0 then
        let s :=
          match result_so_far.out with
          | some c => pipe_consumer_free c s
          | none => s
        .ok ({ result_so_far with out := none }, count, handles, s)
      else
        let rq := pipe_new d.size s
        let rp := pipe_producer_new rq.1 rq.2
        match pipe_connect result_so_far.out (some proc) d.aux (some rp.1)
            (some none) rp.2 with
        | .error e => .error e
        | .ok rconn =>
          let handle : Option Nat := rconn.1.getD none
          let next :=
            match count, handles with
            | some c, some harr =>
              if allocOk rconn.2.nextAlloc then
                (some (c + 1),
                 some (some ((harr.getD []).take c ++ [handle])),
                 { rconn.2 with nextAlloc := rconn.2.nextAlloc + 1 })
              else
                (some c, some harr,
                 { rconn.2 with nextAlloc := rconn.2.nextAlloc + 1 })
            | c₀, h₀ => (c₀, h₀, rconn.2)
          let rc := pipe_consumer_new rq.1 next.2.2
          let result₂ : pipeline_t := { result_so_far with out := some rc.1 }
          let s₂ := pipe_free rq.1 rc.2
          va_pipe_pipeline allocOk next.1 next.2.1 result₂ rest s₂

/-- The linear pipeline builder `pipe_pipeline(count, handles, first_size,
...)`: create the first queue, wrap it into a trivial pipeline, run the
variadic worker over the stage descriptors, release the constructor's
reference on the first queue, and return. -/
def pipe_pipeline (allocOk : Nat → Bool) (count : Option Nat)
    (handles : Option (Option (List (Option Nat)))) (first_size : Nat)
    (args : List StageDesc) (s : BuildState) :
    Except Unit (pipeline_t × Option Nat ×
      Option (Option (List (Option Nat))) × BuildState) :=
  let rq := pipe_new first_size s
  let rt := pipe_trivial_pipeline rq.1 rq.2
  match va_pipe_pipeline allocOk count handles rt.1 args rt.2 with
  | .error e => .error e
  | .ok r => .ok (r.1, r.2.1, r.2.2.1, pipe_free rq.1 r.2.2.2)

/-- The events one chained stage of `va_pipe_pipeline` emits, per
(proc, aux, size) triple: new queue, fresh producer endpoint on it, worker
spawn fed by the accumulated consumer endpoint `cId`, fresh consumer
endpoint advancing the accumulated consumer end, release of the
constructor's queue reference. -/
def chain_events : List (Nat × Nat × Nat) → Nat → Nat → Nat → Nat → List Event
  | [], _, _, _, _ => []
  | (proc, aux, sz) :: rest, cId, q, ep, t =>
    [.queueNew q sz, .producerNew ep q, .spawn t cId proc aux ep,
     .consumerNew (ep + 1) q, .queueFree q] ++
      chain_events rest (ep + 1) (q + 1) (ep + 2) (t + 1)

/-- Where the accumulated consumer end of the linear builder lands after a
run of chained stages: unchanged for no stage, otherwise the fresh consumer
endpoint on the last stage queue. -/
def chain_out : List (Nat × Nat × Nat) → Endpoint → Nat → Nat → Endpoint
  | [], c, _, _ => c
  | _ :: rest, _, q, ep => chain_out rest ⟨q, ep + 1, false⟩ (q + 1) (ep + 2)

/-- The `*handles` array after a run of chained stages whose `realloc`s all
succeed, starting from registry count `c0` and array pointer `harr`, with
thread ids from `t`. -/
def chain_registry : Nat → Nat → Option (List (Option Nat)) → Nat →
    Option (List (Option Nat))
  | 0, _, harr, _ => harr
  | k + 1, c0, harr, t =>
    chain_registry k (c0 + 1) (some ((harr.getD []).take c0 ++ [some t])) (t + 1)

theorem chain_out_closed (stages : List (Nat × Nat × Nat)) (a b : Nat) :
    chain_out stages ⟨a, b, false⟩ (a + 1) (b + 1) =
      ⟨a + stages.length, b + 2 * stages.length, false⟩ := by
  induction stages generalizing a b with
  | nil => simp [chain_out]
  | cons d rest ih =>
    show chain_out rest ⟨a + 1, b + 1 + 1, false⟩ (a + 1 + 1) (b + 1 + 2) = _
    have h₂ : b + 1 + 2 = (b + 2) + 1 := by omega
    rw [h₂, ih (a + 1) (b + 2)]
    simp only [Endpoint.mk.injEq, List.length_cons]
    exact ⟨by omega, by omega, trivial⟩

theorem chain_registry_append (k c0 t : Nat) (arr : List (Option Nat))
    (hlen : arr.length = c0) :
    chain_registry k c0 (some arr) t = some (arr ++ threads_from k t) := by
  induction k generalizing c0 t arr with
  | zero => simp [chain_registry, threads_from]
  | succ j ih =>
    rw [chain_registry]
    have htake : (Option.getD (some arr) []).take c0 = arr := by
      show arr.take c0 = arr
      rw [← hlen, List.take_length]
    rw [htake, ih (c0 + 1) (t + 1) (arr ++ [some t]) (by simp [hlen])]
    simp [threads_from]

/-- One run of `va_pipe_pipeline` over chained (non-sentinel, non-sink)
stage descriptors, with a supplied registry and every `realloc` succeeding:
it reduces to the run over the remaining argument list, with the registry
grown by one recorded handle per stage in construction order, the
accumulated consumer end advanced to the last stage queue, the five per-stage
events appended per stage, and the producer end untouched. -/
theorem va_good_step (allocOk : Nat → Bool) (hA : ∀ i, allocOk i = true)
    (stages : List (Nat × Nat × Nat)) (tail : List StageDesc)
    (hsz : ∀ d ∈ stages, d.2.2 ≠ 0) (c0 : Nat)
    (harr : Option (List (Option Nat))) (pin : Option Endpoint)
    (c : Endpoint) (s : BuildState) :
    va_pipe_pipeline allocOk (some c0) (some harr) ⟨pin, some c⟩
        (stages.map mkStage ++ tail) s =
      va_pipe_pipeline allocOk (some (c0 + stages.length))
        (some (chain_registry stages.length c0 harr s.nextT))
        ⟨pin, some (chain_out stages c s.nextQ s.nextEp)⟩ tail
        { s with nextQ := s.nextQ + stages.length,
                 nextEp := s.nextEp + 2 * stages.length,
                 nextT := s.nextT + stages.length,
                 nextAlloc := s.nextAlloc + stages.length,
                 events := s.events ++
                   chain_events stages c.id s.nextQ s.nextEp s.nextT } := by
  induction stages generalizing c0 harr c s with
  | nil =>
    simp [chain_out, chain_registry, chain_events]
  | cons d rest ih =>
    obtain ⟨p, a, sz⟩ := d
    have hsz0 : sz ≠ 0 := hsz (p, a, sz) (List.mem_cons_self _ _)
    have hrest : ∀ d ∈ rest, d.2.2 ≠ 0 := fun d hd => hsz d (List.mem_cons_of_mem _ hd)
    simp only [List.map_cons, List.cons_append, va_pipe_pipeline, mkStage,
      pipe_new, pipe_producer_new, pipe_connect, pipe_connect_core,
      pipe_consumer_new, pipe_free, Option.getD_some, Option.map_some,
      if_neg hsz0, hA, if_true, List.append_eq]
    rw [ih hrest]
    have h1 : s.nextEp + 1 + 1 = s.nextEp + 2 := rfl
    have h2 : c0 + 1 + rest.length = c0 + (rest.length + 1) := by omega
    have h3 : s.nextQ + 1 + rest.length = s.nextQ + (rest.length + 1) := by omega
    have h4 : s.nextT + 1 + rest.length = s.nextT + (rest.length + 1) := by omega
    have h5 : s.nextAlloc + 1 + rest.length = s.nextAlloc + (rest.length + 1) := by
      omega
    have h6 : s.nextEp + 2 + 2 * rest.length = s.nextEp + 2 * (rest.length + 1) := by
      omega
    simp only [List.length_cons, chain_registry, chain_out, chain_events,
      h1, h2, h3, h4, h5, h6]
    simp [List.append_assoc]

/-- C3: for a stage-descriptor list of chained stages terminated by a null
processing function (with anything at all after the sentinel), the linear
pipeline builder processes the descriptors in order and stops at the first
null processing function: the sentinel's own `aux`/`size` fields and every
later descriptor are ignored (the result does not mention `saux`, `ssize` or
`rest`).  It returns a pipeline descriptor whose producer end is the
producer endpoint of the first queue and whose consumer end is the consumer
endpoint of the last queue created (`s.nextQ + stages.length`, which is the
first queue itself when there are no stages), and, when a registry was
supplied (non-null `count` and `handles`, every `realloc` succeeding), every
stage's thread handle appended to it in construction order
(`threads_from stages.length s.nextT`). -/
theorem pipe_pipeline_linear_spec (allocOk : Nat → Bool)
    (hA : ∀ i, allocOk i = true) (stages : List (Nat × Nat × Nat))
    (hsz : ∀ d ∈ stages, d.2.2 ≠ 0) (saux ssize first_size c0 : Nat)
    (arr : List (Option Nat)) (hlen : arr.length = c0)
    (rest : List StageDesc) (s : BuildState) :
    pipe_pipeline allocOk (some c0) (some (some arr)) first_size
        (stages.map mkStage ++ ⟨none, saux, ssize⟩ :: rest) s =
      .ok (⟨some ⟨s.nextQ, s.nextEp, true⟩,
            some ⟨s.nextQ + stages.length,
                  s.nextEp + 1 + 2 * stages.length, false⟩⟩,
           some (c0 + stages.length),
           some (some (arr ++ threads_from stages.length s.nextT)),
           { s with nextQ := s.nextQ + 1 + stages.length,
                    nextEp := s.nextEp + 2 + 2 * stages.length,
                    nextT := s.nextT + stages.length,
                    nextAlloc := s.nextAlloc + stages.length,
                    events := s.events ++
                      [.queueNew s.nextQ first_size,
                       .producerNew s.nextEp s.nextQ,
                       .consumerNew (s.nextEp + 1) s.nextQ] ++
                      chain_events stages (s.nextEp + 1) (s.nextQ + 1)
                        (s.nextEp + 2) s.nextT ++
                      [.queueFree s.nextQ] }) := by
  simp only [pipe_pipeline, pipe_new, pipe_trivial_pipeline, pipe_producer_new,
    pipe_consumer_new]
  rw [va_good_step allocOk hA stages (⟨none, saux, ssize⟩ :: rest) hsz c0
    (some arr)]
  rw [va_pipe_pipeline]
  rw [chain_registry_append _ _ _ _ hlen]
  have hout : chain_out stages ⟨s.nextQ, s.nextEp + 1, false⟩ (s.nextQ + 1)
      (s.nextEp + 1 + 1) =
      ⟨s.nextQ + stages.length, s.nextEp + 1 + 2 * stages.length, false⟩ :=
    chain_out_closed stages s.nextQ (s.nextEp + 1)
  rw [hout]
  simp only [pipe_free]
  have h2 : s.nextQ + 1 + stages.length = s.nextQ + (1 + stages.length) := by omega
  have h3 : s.nextEp + 2 + 2 * stages.length =
      s.nextEp + (2 + 2 * stages.length) := by omega
  simp only [Except.ok.injEq, Prod.mk.injEq, pipeline_t.mk.injEq,
    BuildState.mk.injEq]
  refine ⟨trivial, trivial, trivial, trivial, trivial, trivial, trivial, ?_⟩
  have h1 : s.nextEp + 1 + 1 = s.nextEp + 2 := rfl
  rw [h1]
  simp [List.append_assoc]

/-- C3 witness: one chained stage then the sentinel, with a fresh registry,
from the zero state. -/
theorem pipe_pipeline_linear_spec_witness :
    (∀ d ∈ [((7 : Nat), (3 : Nat), (2 : Nat))], d.2.2 ≠ 0) ∧
    ([] : List (Option Nat)).length = 0 ∧
    pipe_pipeline (fun _ => true) (some 0) (some (some [])) 4
        ([(7, 3, 2)].map mkStage ++ ⟨none, 0, 0⟩ :: []) ⟨0, 0, 0, 0, []⟩ =
      .ok (⟨some ⟨0, 0, true⟩, some ⟨1, 3, false⟩⟩, some 1, some (some [some 0]),
           ⟨2, 4, 1, 1,
            [.queueNew 0 4, .producerNew 0 0, .consumerNew 1 0, .queueNew 1 2,
             .producerNew 2 1, .spawn 0 1 7 3 2, .consumerNew 3 1, .queueFree 1,
             .queueFree 0]⟩) :=
  ⟨by decide, rfl,
   (pipe_pipeline_linear_spec (fun _ => true) (fun _ => rfl) [(7, 3, 2)]
      (by decide) 0 0 4 0 [] rfl [] ⟨0, 0, 0, 0, []⟩).trans rfl⟩

/-- C4: if a stage descriptor declares next element size 0 (the sink rule),
the linear builder creates no queue and runs no stage connector for it or
for anything after it (the result does not mention the sink's processing
function/context or the later descriptors beyond the sink), releases the
accumulated consumer endpoint (`consumerFree` of the consumer endpoint on
queue `s.nextQ + stages.length`), returns a descriptor whose consumer end is
null and whose producer end is still the producer endpoint of the first
queue, and stops. -/
theorem pipe_pipeline_sink_spec (allocOk : Nat → Bool)
    (hA : ∀ i, allocOk i = true) (stages : List (Nat × Nat × Nat))
    (hsz : ∀ d ∈ stages, d.2.2 ≠ 0) (sproc saux first_size c0 : Nat)
    (arr : List (Option Nat)) (hlen : arr.length = c0)
    (rest : List StageDesc) (s : BuildState) :
    pipe_pipeline allocOk (some c0) (some (some arr)) first_size
        (stages.map mkStage ++ ⟨some sproc, saux, 0⟩ :: rest) s =
      .ok (⟨some ⟨s.nextQ, s.nextEp, true⟩, none⟩,
           some (c0 + stages.length),
           some (some (arr ++ threads_from stages.length s.nextT)),
           { s with nextQ := s.nextQ + 1 + stages.length,
                    nextEp := s.nextEp + 2 + 2 * stages.length,
                    nextT := s.nextT + stages.length,
                    nextAlloc := s.nextAlloc + stages.length,
                    events := s.events ++
                      [.queueNew s.nextQ first_size,
                       .producerNew s.nextEp s.nextQ,
                       .consumerNew (s.nextEp + 1) s.nextQ] ++
                      chain_events stages (s.nextEp + 1) (s.nextQ + 1)
                        (s.nextEp + 2) s.nextT ++
                      [.consumerFree (s.nextEp + 1 + 2 * stages.length),
                       .queueFree s.nextQ] }) := by
  simp only [pipe_pipeline, pipe_new, pipe_trivial_pipeline, pipe_producer_new,
    pipe_consumer_new]
  rw [va_good_step allocOk hA stages (⟨some sproc, saux, 0⟩ :: rest) hsz c0
    (some arr)]
  rw [va_pipe_pipeline]
  rw [chain_registry_append _ _ _ _ hlen]
  have hout : chain_out stages ⟨s.nextQ, s.nextEp + 1, false⟩ (s.nextQ + 1)
      (s.nextEp + 1 + 1) =
      ⟨s.nextQ + stages.length, s.nextEp + 1 + 2 * stages.length, false⟩ :=
    chain_out_closed stages s.nextQ (s.nextEp + 1)
  rw [hout]
  simp only [pipe_consumer_free, pipe_free, if_pos]
  simp only [Except.ok.injEq, Prod.mk.injEq, pipeline_t.mk.injEq,
    BuildState.mk.injEq]
  refine ⟨trivial, trivial, trivial, trivial, trivial, trivial, trivial, ?_⟩
  have h1 : s.nextEp + 1 + 1 = s.nextEp + 2 := rfl
  rw [h1]
  simp [List.append_assoc]

/-- C4 witness: one chained stage then a sink descriptor (size 0), with a
stage after the sink that is provably ignored. -/
theorem pipe_pipeline_sink_spec_witness :
    (∀ d ∈ [((7 : Nat), (3 : Nat), (2 : Nat))], d.2.2 ≠ 0) ∧
    pipe_pipeline (fun _ => true) (some 0) (some (some [])) 4
        ([(7, 3, 2)].map mkStage ++ ⟨some 9, 5, 0⟩ :: [⟨some 11, 6, 8⟩])
        ⟨0, 0, 0, 0, []⟩ =
      .ok (⟨some ⟨0, 0, true⟩, none⟩, some 1, some (some [some 0]),
           ⟨2, 4, 1, 1,
            [.queueNew 0 4, .producerNew 0 0, .consumerNew 1 0, .queueNew 1 2,
             .producerNew 2 1, .spawn 0 1 7 3 2, .consumerNew 3 1, .queueFree 1,
             .consumerFree 3, .queueFree 0]⟩) :=
  ⟨by decide,
   (pipe_pipeline_sink_spec (fun _ => true) (fun _ => rfl) [(7, 3, 2)]
      (by decide) 9 5 4 0 [] rfl [⟨some 11, 6, 8⟩] ⟨0, 0, 0, 0, []⟩).trans rfl⟩

/-- C6: during linear pipeline construction with a supplied registry, when
growing the thread-handle registry fails (the `realloc` numbered
`s.nextAlloc` returns null), construction still proceeds to the rest of the
descriptor list: the stage's worker is spawned exactly as in the successful
case (the same five per-stage events, including the `spawn`), but the
handle is not recorded — the registry count `some c0` and the recorded
handles `some harr` reach the recursive call unchanged (only the
realloc-call counter advances). -/
theorem registry_growth_failure_spec (allocOk : Nat → Bool) (p a sz : Nat)
    (hsz : sz ≠ 0) (c0 : Nat) (harr : Option (List (Option Nat)))
    (pin : Option Endpoint) (c : Endpoint) (rest : List StageDesc)
    (s : BuildState) (hfail : allocOk s.nextAlloc = false) :
    va_pipe_pipeline allocOk (some c0) (some harr) ⟨pin, some c⟩
        (⟨some p, a, sz⟩ :: rest) s =
      va_pipe_pipeline allocOk (some c0) (some harr)
        ⟨pin, some ⟨s.nextQ, s.nextEp + 1, false⟩⟩ rest
        { s with nextQ := s.nextQ + 1, nextEp := s.nextEp + 2,
                 nextT := s.nextT + 1, nextAlloc := s.nextAlloc + 1,
                 events := s.events ++
                   [.queueNew s.nextQ sz, .producerNew s.nextEp s.nextQ,
                    .spawn s.nextT c.id p a s.nextEp,
                    .consumerNew (s.nextEp + 1) s.nextQ,
                    .queueFree s.nextQ] } := by
  simp only [va_pipe_pipeline, pipe_new, pipe_producer_new, pipe_connect,
    pipe_connect_core, pipe_consumer_new, pipe_free, Option.getD_some,
    Option.map_some, if_neg hsz, hfail]
  simp [List.append_assoc]

/-- C6 witness: a failing realloc oracle on a concrete one-stage argument
list: the spawn still happens and the registry is unchanged. -/
theorem registry_growth_failure_spec_witness :
    (2 : Nat) ≠ 0 ∧ (fun _ : Nat => false) 0 = false ∧
    va_pipe_pipeline (fun _ => false) (some 0) (some (some []))
        ⟨some ⟨0, 0, true⟩, some ⟨0, 1, false⟩⟩ [⟨some 7, 3, 2⟩]
        ⟨1, 2, 0, 0, []⟩ =
      .ok (⟨some ⟨0, 0, true⟩, some ⟨1, 3, false⟩⟩, some 0, some (some []),
           ⟨2, 4, 1, 1,
            [.queueNew 1 2, .producerNew 2 1, .spawn 0 1 7 3 2,
             .consumerNew 3 1, .queueFree 1]⟩) :=
  ⟨by decide, rfl,
   (registry_growth_failure_spec (fun _ => false) 7 3 2 (by decide) 0
      (some []) (some ⟨0, 0, true⟩) ⟨0, 1, false⟩ [] ⟨1, 2, 0, 0, []⟩
      rfl).trans rfl⟩

/-- C9: in the linear pipeline builder, a spawned stage's thread handle is
recorded only when both the count pointer and the handles pointer are
non-null: when either of them is null, the stage step spawns the worker all
the same (identical per-stage events including the `spawn`), but nothing is
recorded — `count` and `handles` reach the recursive call unchanged and,
since no `realloc` is even attempted, the realloc-call counter does not
advance either.  The worker whose handle was discarded is therefore
un-joinable by the caller. -/
theorem handle_discard_spec (allocOk : Nat → Bool) (count : Option Nat)
    (handles : Option (Option (List (Option Nat))))
    (hnull : count = none ∨ handles = none) (p a sz : Nat) (hsz : sz ≠ 0)
    (pin : Option Endpoint) (c : Endpoint) (rest : List StageDesc)
    (s : BuildState) :
    va_pipe_pipeline allocOk count handles ⟨pin, some c⟩
        (⟨some p, a, sz⟩ :: rest) s =
      va_pipe_pipeline allocOk count handles
        ⟨pin, some ⟨s.nextQ, s.nextEp + 1, false⟩⟩ rest
        { s with nextQ := s.nextQ + 1, nextEp := s.nextEp + 2,
                 nextT := s.nextT + 1,
                 events := s.events ++
                   [.queueNew s.nextQ sz, .producerNew s.nextEp s.nextQ,
                    .spawn s.nextT c.id p a s.nextEp,
                    .consumerNew (s.nextEp + 1) s.nextQ,
                    .queueFree s.nextQ] } := by
  rcases hnull with rfl | rfl
  · simp only [va_pipe_pipeline, pipe_new, pipe_producer_new, pipe_connect,
      pipe_connect_core, pipe_consumer_new, pipe_free, Option.getD_some,
      Option.map_some, if_neg hsz]
    simp [List.append_assoc]
  · cases count with
    | none =>
      simp only [va_pipe_pipeline, pipe_new, pipe_producer_new, pipe_connect,
        pipe_connect_core, pipe_consumer_new, pipe_free, Option.getD_some,
        Option.map_some, if_neg hsz]
      simp [List.append_assoc]
    | some c0 =>
      simp only [va_pipe_pipeline, pipe_new, pipe_producer_new, pipe_connect,
        pipe_connect_core, pipe_consumer_new, pipe_free, Option.getD_some,
        Option.map_some, if_neg hsz]
      simp [List.append_assoc]

/-- C9 witness: a non-null count pointer with a null handles pointer on a
concrete one-stage argument list: the spawn still happens, the count is not
incremented. -/
theorem handle_discard_spec_witness :
    ((some 0 : Option Nat) = none ∨
      (none : Option (Option (List (Option Nat)))) = none) ∧ (2 : Nat) ≠ 0 ∧
    va_pipe_pipeline (fun _ => true) (some 0) none
        ⟨some ⟨0, 0, true⟩, some ⟨0, 1, false⟩⟩ [⟨some 7, 3, 2⟩]
        ⟨1, 2, 0, 0, []⟩ =
      .ok (⟨some ⟨0, 0, true⟩, some ⟨1, 3, false⟩⟩, some 0, none,
           ⟨2, 4, 1, 0,
            [.queueNew 1 2, .producerNew 2 1, .spawn 0 1 7 3 2,
             .consumerNew 3 1, .queueFree 1]⟩) :=
  ⟨Or.inr rfl, by decide,
   (handle_discard_spec (fun _ => true) (some 0) none (Or.inr rfl) 7 3 2
      (by decide) (some ⟨0, 0, true⟩) ⟨0, 1, false⟩ [] ⟨1, 2, 0, 0, []⟩).trans
     rfl⟩

end PipeUtil
